import Mathlib

/-!
Verification of the nBot chat-bot orchestrator core (Rust) against its
natural-language specification.  The definitions below are shallow embeddings
of functions from the backend source tree; each keeps the Rust function's
name where Lean allows it.  Machine integers are modelled as `Nat` (the Rust
code never relies on wrap-around in the fragments embedded here), time
instants and `std::time::Duration` values are modelled as nanosecond counts,
and external collaborators (the JPEG encoder of the `image` crate, the
SHA-256 hex digest of the `sha2` crate, the OneBot name-resolution RPCs) are
modelled as explicit function parameters.
-/

namespace NBot

/-- Rust `u8::is_ascii_digit` / the `is_digit` helper of
`redact.rs::redact_qq_ids`: the character is one of `0`..`9`. -/
def is_digit (c : Char) : Bool :=
  c.isDigit

/-- `starts_with pat l` is true when the list `l` begins with `pat`
(Rust `str::starts_with` on the corresponding strings). -/
def starts_with : List Char → List Char → Bool
  | [], _ => true
  | _ :: _, [] => false
  | a :: as, b :: bs => a == b && starts_with as bs

/-- `ends_with suf l`: the list `l` ends with `suf` (Rust `str::ends_with`). -/
def ends_with (suf l : List Char) : Bool :=
  starts_with suf.reverse l.reverse

/-- `str_contains pat l`: `pat` occurs as a contiguous substring of `l`
(Rust `str::contains` with a string pattern). -/
def str_contains (pat : List Char) : List Char → Bool
  | [] => starts_with pat []
  | l@(_ :: rest) => starts_with pat l || str_contains pat rest

/-- Lowercase one character, ASCII-only (Rust `u8::to_ascii_lowercase`;
Lean's `Char.toLower` has exactly this behaviour on the ASCII range used by
the embedded code). -/
def ascii_lower (c : Char) : Char :=
  c.toLower

/-- The Unicode `White_Space` property used by Rust's `str::trim`
(`char::is_whitespace`), listed by code point. -/
def is_rust_whitespace (c : Char) : Bool :=
  (0x09 ≤ c.toNat && c.toNat ≤ 0x0D) || c.toNat = 0x20 || c.toNat = 0x85 ||
  c.toNat = 0xA0 || c.toNat = 0x1680 ||
  (0x2000 ≤ c.toNat && c.toNat ≤ 0x200A) ||
  c.toNat = 0x2028 || c.toNat = 0x2029 || c.toNat = 0x202F ||
  c.toNat = 0x205F || c.toNat = 0x3000

/-- Rust `str::trim` on the character list: remove leading and trailing
whitespace. -/
def rust_trim (l : List Char) : List Char :=
  ((l.dropWhile is_rust_whitespace).reverse.dropWhile is_rust_whitespace).reverse

/-- Rust `str::trim` at the `String` level. -/
def rust_trim_str (s : String) : String :=
  String.mk (rust_trim s.data)

/-! ## Claim C9 — frame selection
`multimodal/video/frames.rs::evenly_spaced_indices`.  `usize` is 64 bits:
`saturating_sub` coincides with `Nat` subtraction (which already saturates
at zero), but `saturating_mul` caps at `usize::MAX = 2^64 - 1` and is
modelled explicitly. -/

/-- Rust `usize::saturating_mul` on a 64-bit target. -/
def saturating_mul_u64 (a b : Nat) : Nat :=
  min (a * b) (2 ^ 64 - 1)

/-- Embedding of `frames.rs::evenly_spaced_indices`:
`(0..keep).map(|i| i.saturating_mul(total.saturating_sub(1)) / denom)` with
`denom = keep.saturating_sub(1)` after the three guard cases. -/
def evenly_spaced_indices (total keep : Nat) : List Nat :=
  if keep = 0 ∨ total = 0 then
    []
  else if keep ≥ total then
    List.range total
  else if keep = 1 then
    [total / 2]
  else
    let denom := keep - 1
    (List.range keep).map (fun i => saturating_mul_u64 i (total - 1) / denom)

/-! ## Claim C8 — Discord reconnect backoff
`discord.rs::start_discord_bot`: the reconnect loop sleeps `backoff`,
initialised to `Duration::from_secs(1)`, and after each attempt sets
`backoff = (backoff * 2).min(Duration::from_secs(30))`.  All values are whole
seconds, modelled as `Nat` seconds. -/

/-- One update of the reconnect delay, from `discord.rs` line 505. -/
def backoff_step (b : Nat) : Nat :=
  min (b * 2) 30

/-- The delay (in seconds) slept before re-dialling after the `n`-th exit of
`discord_connect_and_run` in the reconnect loop of `start_discord_bot`. -/
def backoff_at : Nat → Nat
  | 0 => 1
  | n + 1 => backoff_step (backoff_at n)

/-! ## Claim C2 — OneBot echo correlation tokens
`connection.rs::BotRuntime::call_api` builds
`echo = format!("{}_{}", action, now_nanos)` from
`duration_since(UNIX_EPOCH).as_nanos()`, while `api.rs::send_api` builds
`echo = format!("{}_{}", action, now_ms)` from the same duration's
`.as_millis()`.  A `std::time::Duration` is modelled by its nanosecond
count. -/

/-- `Duration::as_nanos` on a duration of `d` nanoseconds. -/
def duration_as_nanos (d : Nat) : Nat := d

/-- `Duration::as_millis` on a duration of `d` nanoseconds. -/
def duration_as_millis (d : Nat) : Nat := d / 1000000

/-- An outgoing OneBot WebSocket frame `{"action":…,"params":…,"echo":…}`;
the params payload is kept opaque. -/
structure OutgoingFrame (P : Type) where
  action : String
  params : P
  echo : String
deriving Repr, DecidableEq

/-- The frame sent by the awaited RPC path `BotRuntime::call_api`
(`connection.rs` lines 183-193), given the duration since the Unix epoch in
nanoseconds. -/
def call_api_frame {P : Type} (action : String) (params : P) (epoch_nanos : Nat) :
    OutgoingFrame P :=
  { action := action
    params := params
    echo := action ++ "_" ++ toString (duration_as_nanos epoch_nanos) }

/-- The frame sent by the fire-and-forget path `api.rs::send_api`
(lines 380-389), given the duration since the Unix epoch in nanoseconds. -/
def send_api_frame {P : Type} (action : String) (params : P) (epoch_nanos : Nat) :
    OutgoingFrame P :=
  { action := action
    params := params
    echo := action ++ "_" ++ toString (duration_as_millis epoch_nanos) }

/-! ## Claim C7 — archive candidate scoring
`archive.rs::choose_best_file` and its helpers. -/

/-- `archive.rs::ExtractCandidate`. -/
structure ExtractCandidate where
  name : String
  size_bytes : Nat
deriving Repr, DecidableEq

/-- Rust `str::to_lowercase` (the names and keywords scored by the archive
module are ASCII, where this agrees with Unicode lowercasing). -/
def str_lower (s : String) : String :=
  String.mk (s.data.map ascii_lower)

/-- `archive.rs::normalize_keywords`: trim, lowercase, drop empties.
Keywords are ASCII so ASCII lowercasing is exact. -/
def normalize_keywords (keywords : List String) : List String :=
  (keywords.map (fun s => str_lower (rust_trim_str s))).filter (fun s => s ≠ "")

/-- The score `choose_best_file` assigns to one candidate, given the already
normalised keyword list (`archive.rs` lines 56-81).  The Rust `i64` score is
modelled as `Int`. -/
def candidate_score (kw : List String) (c : ExtractCandidate) : Int :=
  let name := str_lower c.name
  let s : Int :=
    (if ends_with "latest.log".data name.data then 200 else 0)
    + (if str_contains "crash".data name.data || str_contains "hs_err".data name.data
        then 150 else 0)
    + (if ends_with ".log".data name.data then 40 else 0)
    + (if ends_with ".txt".data name.data then 20 else 0)
  let s := kw.foldl
    (fun acc k =>
      if name = k then acc + 500
      else if str_contains k.data name.data then acc + 80
      else acc) s
  s + ((min c.size_bytes 5000000) / 50000 : Nat)

/-- Embedding of `archive.rs::choose_best_file`: first strictly greater score
wins, ties keep the earlier candidate. -/
def choose_best_file (candidates : List ExtractCandidate) (keywords : List String) :
    Option ExtractCandidate :=
  if candidates = [] then none
  else
    let kw := normalize_keywords keywords
    let best := candidates.foldl
      (fun best c =>
        let score := candidate_score kw c
        match best with
        | none => some (c, score)
        | some (b, sb) => if score > sb then some (c, score) else some (b, sb))
      none
    best.map (fun p => p.1)

/-! ## Claim C6 — plugin storage key filenames
`plugin/runtime/ops.rs::safe_storage_key_filename`.  The SHA-256 hex digest
comes from the external `sha2` crate and is modelled as an explicit function
parameter `sha256_hex`. -/

/-- Rust `char::is_ascii_alphanumeric`, by code point. -/
def is_ascii_alphanumeric (c : Char) : Bool :=
  (48 ≤ c.toNat && c.toNat ≤ 57) || (65 ≤ c.toNat && c.toNat ≤ 90) ||
  (97 ≤ c.toNat && c.toNat ≤ 122)

/-- The character test of `safe_storage_key_filename`:
`c.is_ascii_alphanumeric() || c == '_' || c == '-' || c == '.'`. -/
def is_storage_key_char (c : Char) : Bool :=
  is_ascii_alphanumeric c || c = '_' || c = '-' || c = '.'

/-- UTF-8 encoding size of one character (Rust `String::len` counts UTF-8
bytes). -/
def char_utf8_size (c : Char) : Nat :=
  if c.toNat ≤ 0x7F then 1
  else if c.toNat ≤ 0x7FF then 2
  else if c.toNat ≤ 0xFFFF then 3
  else 4

/-- Rust `str::len` (UTF-8 byte count) of a character list. -/
def utf8_len (l : List Char) : Nat :=
  l.foldl (fun a c => a + char_utf8_size c) 0

/-- The `is_safe` test inside `ops.rs::safe_storage_key_filename`
(lines 69-73): non-empty, at most 64 UTF-8 bytes, every character
alphanumeric or `_`, `-`, `.`. -/
def is_safe_storage_key (l : List Char) : Bool :=
  !l.isEmpty && utf8_len l ≤ 64 && l.all is_storage_key_char

/-- The character class `[A-Za-z0-9_.-]{1,64}` named by the specification:
non-empty, at most 64 characters, all in the class. -/
def key_in_charset (l : List Char) : Bool :=
  !l.isEmpty && l.length ≤ 64 && l.all is_storage_key_char

/-- Embedding of `ops.rs::safe_storage_key_filename` (lines 67-83): trim the
key, return it verbatim when safe, otherwise return
`"key_" ++ sha256_hex(trimmed key)`. -/
def safe_storage_key_filename (sha256_hex : List Char → List Char)
    (key : List Char) : List Char :=
  let k := rust_trim key
  if is_safe_storage_key k then k else "key_".data ++ sha256_hex k

/-! ## Claim C4 — LLM abuse gate
`command_exec/llm_abuse.rs::try_begin_llm_task`.  The process-wide atomics
and dash-maps are modelled as one explicit state record; durations and
instants are nanosecond counts. -/

/-- `llm_abuse.rs::LlmAbuseConfig` (`min_interval_per_user` in
nanoseconds). -/
structure LlmAbuseConfig where
  enabled : Bool
  max_concurrent_global : Nat
  max_concurrent_per_user : Nat
  max_concurrent_per_group : Nat
  min_interval_per_user : Nat
deriving Repr, DecidableEq

/-- `llm_abuse.rs::LlmAbuseBlock`. -/
structure LlmAbuseBlock where
  message : String
deriving Repr, DecidableEq

/-- `llm_abuse.rs::LlmTaskGuard` (the `Drop` behaviour is not part of the
claims settled here). -/
structure LlmTaskGuard where
  active : Bool
  user_id : Nat
  group_id : Nat
deriving Repr, DecidableEq

/-- The global/per-user/per-group inflight counters and the per-user
last-start map (`GLOBAL_INFLIGHT`, `USER_INFLIGHT`, `GROUP_INFLIGHT`,
`USER_LAST_START`).  Map entries absent from the dash-maps read as counter 0
/ no timestamp, so the maps are total functions. -/
structure AbuseState where
  global_inflight : Nat
  user_inflight : Nat → Nat
  group_inflight : Nat → Nat
  user_last_start : Nat → Option Nat

/-- Point update of a counter map: increment at `k`. -/
def inc_at (f : Nat → Nat) (k : Nat) : Nat → Nat :=
  fun x => if x = k then f k + 1 else f x

/-- Point update of a counter map: decrement at `k`
(`llm_abuse.rs::dec_inflight`). -/
def dec_at (f : Nat → Nat) (k : Nat) : Nat → Nat :=
  fun x => if x = k then f k - 1 else f x

/-- `llm_abuse.rs::try_inc_global`: compare-exchange loop, sequentially a
bounds check plus increment. -/
def try_inc_global (g max : Nat) : Bool × Nat :=
  if g ≥ max then (false, g) else (true, g + 1)

/-- `llm_abuse.rs::try_inc_inflight` on a counter map. -/
def try_inc_inflight (f : Nat → Nat) (key max : Nat) : Bool × (Nat → Nat) :=
  if f key ≥ max then (false, f) else (true, inc_at f key)

/-- The minimum-interval gate at the end of `try_begin_llm_task`
(lines 166-194): on block, the message names the remaining whole seconds
(ceiling, at least 1) and all three counters incremented so far are
decremented; on pass, the user's last-start entry is set to `now`. -/
def llm_interval_gate (cfg : LlmAbuseConfig) (user_id group_id now : Nat)
    (st : AbuseState) : Except LlmAbuseBlock LlmTaskGuard × AbuseState :=
  if cfg.min_interval_per_user ≠ 0 then
    match st.user_last_start user_id with
    | some last =>
      let elapsed := now - last
      if elapsed < cfg.min_interval_per_user then
        let remain := cfg.min_interval_per_user - elapsed
        let remain_secs := max ((remain + 999999999) / 1000000000) 1
        (.error ⟨"请求过于频繁，请 " ++ toString remain_secs ++ " 秒后再试"⟩,
         { st with
            group_inflight :=
              if group_id ≠ 0 then dec_at st.group_inflight group_id
              else st.group_inflight
            user_inflight := dec_at st.user_inflight user_id
            global_inflight := st.global_inflight - 1 })
      else
        (.ok ⟨true, user_id, group_id⟩,
         { st with user_last_start :=
            fun x => if x = user_id then some now else st.user_last_start x })
    | none =>
      (.ok ⟨true, user_id, group_id⟩,
       { st with user_last_start :=
          fun x => if x = user_id then some now else st.user_last_start x })
  else
    (.ok ⟨true, user_id, group_id⟩, st)

/-- Embedding of `llm_abuse.rs::try_begin_llm_task` (lines 132-201),
sequential semantics. -/
def try_begin_llm_task (cfg : LlmAbuseConfig) (user_id group_id now : Nat)
    (st : AbuseState) : Except LlmAbuseBlock LlmTaskGuard × AbuseState :=
  if cfg.enabled = false then
    (.ok ⟨false, user_id, group_id⟩, st)
  else
    match try_inc_global st.global_inflight cfg.max_concurrent_global with
    | (false, _) => (.error ⟨"当前分析请求过多，请稍后再试"⟩, st)
    | (true, g1) =>
      let st1 := { st with global_inflight := g1 }
      match try_inc_inflight st1.user_inflight user_id cfg.max_concurrent_per_user with
      | (false, _) =>
        (.error ⟨"你有一个正在进行的分析任务，请等待完成后再试"⟩,
         { st1 with global_inflight := st1.global_inflight - 1 })
      | (true, u1) =>
        let st2 := { st1 with user_inflight := u1 }
        if group_id = 0 then
          llm_interval_gate cfg user_id group_id now st2
        else
          match try_inc_inflight st2.group_inflight group_id cfg.max_concurrent_per_group with
          | (false, _) =>
            (.error ⟨"当前群内已有分析任务在进行，请稍后再试"⟩,
             { st2 with
                user_inflight := dec_at st2.user_inflight user_id
                global_inflight := st2.global_inflight - 1 })
          | (true, grp1) =>
            llm_interval_gate cfg user_id group_id now { st2 with group_inflight := grp1 }

/-! ## Claim C1 — image recompression to a byte budget
`multimodal/image.rs::prepare_image_data_url`.  The JPEG encoder of the
`image` crate is external; it is modelled as a function
`enc : width → height → quality → encoded byte count`.  Along one run the
pixel content at given dimensions is determined by the deterministic
resize path, so this abstraction is faithful.  The `f64` computations
(`0.85` shrink, initial scale) are modelled by exact rational rounding
(round half away from zero); they only pick which sizes are tried and no
settled claim depends on sub-ulp boundary behaviour. -/

/-- `image.rs::PreparedImageMeta` (the constant `mime` field
`"image/jpeg"` is omitted). -/
structure PreparedImageMeta where
  width : Nat
  height : Nat
  output_bytes : Nat
  quality : Nat
deriving Repr, DecidableEq

/-- Length of the standard base64 encoding of `n` bytes. -/
def base64_len (n : Nat) : Nat :=
  4 * ((n + 2) / 3)

/-- Length of the produced `data:image/jpeg;base64,…` URL for an `n`-byte
JPEG payload. -/
def data_url_len (n : Nat) : Nat :=
  "data:image/jpeg;base64,".length + base64_len n

/-- The error string of `image.rs` lines 121-124. -/
def image_too_large_msg (budget : Nat) : String :=
  "Image too large: cannot compress within " ++ toString budget ++ " bytes"

/-- `((x as f64) * 0.85).round().max(1.0)` on a nonnegative integer,
as exact rational rounding of `17x/20` half away from zero. -/
def shrink_085 (x : Nat) : Nat :=
  max ((17 * x + 10) / 20) 1

/-- The `for _ in 0..10` compression loop of `prepare_image_data_url`
(`image.rs` lines 90-119): encode, accept if within budget, otherwise step
quality down by 10 with floor 50, then shrink both dimensions by 0.85
(resetting quality), stopping with the "Image too large" error after 10
attempts or when shrinking no longer changes the size. -/
def compress_loop (enc : Nat → Nat → Nat → Nat) (jpeg_quality budget : Nat) :
    Nat → Nat → Nat → Nat → Except String (Nat × PreparedImageMeta)
  | 0, _, _, _ => .error (image_too_large_msg budget)
  | fuel + 1, w, h, q =>
    let len := enc w h q
    if len ≤ budget then
      .ok (data_url_len len, ⟨w, h, len, q⟩)
    else if q > 50 then
      compress_loop enc jpeg_quality budget fuel w h (max (q - 10) 50)
    else
      let nw := shrink_085 w
      let nh := shrink_085 h
      if nw = w ∧ nh = h then .error (image_too_large_msg budget)
      else compress_loop enc jpeg_quality budget fuel nw nh (min (max jpeg_quality 30) 95)

/-- The pre-loop resize of `prepare_image_data_url` (`image.rs` lines
71-78): when either dimension exceeds its bound, scale by
`min(max_w/orig_w, max_h/orig_h)` (rational, rounded half away from zero,
floored at 1). -/
def initial_target_dims (orig_w orig_h max_w max_h : Nat) : Nat × Nat :=
  if orig_w > max_w ∨ orig_h > max_h then
    if max_w * orig_h ≤ max_h * orig_w then
      (max ((2 * orig_w * max_w + orig_w) / (2 * orig_w)) 1,
       max ((2 * orig_h * max_w + orig_w) / (2 * orig_w)) 1)
    else
      (max ((2 * orig_w * max_h + orig_h) / (2 * orig_h)) 1,
       max ((2 * orig_h * max_h + orig_h) / (2 * orig_h)) 1)
  else
    (orig_w, orig_h)

/-- Embedding of `image.rs::prepare_image_data_url` from the point where the
input image has been decoded to `orig_w × orig_h` pixels.  Returns the data
URL (by its length, paired with the metadata) or an error string. -/
def prepare_image_data_url (enc : Nat → Nat → Nat → Nat)
    (orig_w orig_h max_w max_h jpeg_quality max_output_bytes : Nat) :
    Except String (Nat × PreparedImageMeta) :=
  let dims := initial_target_dims orig_w orig_h max_w max_h
  let quality := min (max jpeg_quality 30) 95
  let budget := min (max max_output_bytes 50000) 10000000
  compress_loop enc jpeg_quality budget 10 dims.1 dims.2 quality

/-! ## Claim C3 — outgoing message deduplication
`connection.rs::MessageDedup` and the dedup gate in `api.rs::send_reply`.
`Instant`s are nanosecond counts; `Instant::duration_since` saturates at
zero, matching `Nat` subtraction; `Duration::as_secs` truncates, matching
`Nat` division by 10^9.  The `std` `DefaultHasher` of
`api.rs::compute_message_hash` is external and modelled as a function
parameter. -/

/-- `connection.rs::MessageDedup`: hash → recording instant, with the TTL in
seconds. -/
structure MessageDedup where
  cache : List (Nat × Nat)
  ttl_secs : Nat

/-- Embedding of `MessageDedup::is_duplicate` (`connection.rs` lines 70-83):
purge entries at least `ttl_secs` old, report a live entry as duplicate,
otherwise record `now` and report fresh.  Returns the result together with
the updated state. -/
def is_duplicate (d : MessageDedup) (now hash : Nat) : Bool × MessageDedup :=
  let cache := d.cache.filter (fun p => (now - p.2) / 1000000000 < d.ttl_secs)
  match cache.find? (fun p => p.1 == hash) with
  | some p =>
    if (now - p.2) / 1000000000 < d.ttl_secs then
      (true, { d with cache := cache })
    else
      (false, { d with cache := (hash, now) :: cache.filter (fun q => q.1 != hash) })
  | none => (false, { d with cache := (hash, now) :: cache })

/-- `connection.rs::GroupSendStatus`. -/
inductive GroupSendStatus where
  | Allowed
  | Muted
  | Unknown
deriving Repr, DecidableEq

/-- The group branch of `api.rs::send_reply` (lines 266-293) from the point
where the outgoing text has been sanitized: skip when muted, then drop the
message when `is_duplicate` fires, otherwise hand it to `send_api`.  The
returned `Bool` is "the message reached the transport"; `hash_fn` models
`compute_message_hash` over `(bot_id, group_id, message)`. -/
def send_reply_group (hash_fn : String → Nat → String → Nat)
    (status : GroupSendStatus) (bot_id : String) (group_id : Nat)
    (message : String) (d : MessageDedup) (now : Nat) : Bool × MessageDedup :=
  match status with
  | .Muted => (false, d)
  | _ =>
    let r := is_duplicate d now (hash_fn bot_id group_id message)
    (!r.1, r.2)

/-- Fold `is_duplicate` for one hash over a list of call instants. -/
def dedup_run (h : Nat) : MessageDedup → List Nat → List Bool
  | _, [] => []
  | d, t :: ts =>
    let r := is_duplicate d t h
    r.1 :: dedup_run h r.2 ts

/-- Fold `send_reply_group` for one fixed `(bot, target, message)` triple
over a list of call instants. -/
def send_reply_run (hash_fn : String → Nat → String → Nat)
    (status : GroupSendStatus) (bot_id : String) (group_id : Nat)
    (message : String) : MessageDedup → List Nat → List Bool
  | _, [] => []
  | d, t :: ts =>
    let r := send_reply_group hash_fn status bot_id group_id message d t
    r.1 :: send_reply_run hash_fn status bot_id group_id message r.2 ts

/-! ## Claims C10 and C5 — outbound privacy redaction
`redact.rs::redact_qq_ids` scans the UTF-8 bytes; because all four patterns
are pure-ASCII and ASCII byte values never occur inside multi-byte UTF-8
sequences, the byte-level scan is equivalent to the character-level scan
embedded here.  The recursion is fuelled by the input length so that it
stays structural (one character is consumed per step, so the fuel never runs
out). -/

/-- `redact.rs::digit_span`: number of leading ASCII digits, capped at
`max_len`. -/
def digit_span_len (l : List Char) (max_len : Nat) : Nat :=
  ((l.takeWhile is_digit).take max_len).length

/-- Head-of-list digit test (`bytes.get(i+4).copied().is_some_and(is_digit)`
in the `uin=` guard). -/
def head_is_digit : List Char → Bool
  | [] => false
  | c :: _ => is_digit c

/-- The scanning loop of `redact.rs::redact_qq_ids` (lines 19-85):
`@<5-12 digits>` → `@用户`, `(<5-12 digits>)` → `(已隐藏)`,
`qq=<5-12 digits>` / `uin=<5-12 digits>` (case-insensitive key) →
the digits become `已隐藏`. -/
def redact_qq_go : Nat → List Char → List Char
  | 0, l => l
  | _ + 1, [] => []
  | fuel + 1, c :: rest =>
    if c = '@' then
      let ds := digit_span_len rest 12
      if 5 ≤ ds ∧ ds ≤ 12 then
        "@用户".data ++ redact_qq_go fuel (rest.drop ds)
      else
        c :: redact_qq_go fuel rest
    else if c = '(' then
      let ds := digit_span_len rest 12
      if (5 ≤ ds ∧ ds ≤ 12) ∧ (rest.drop ds).head? = some ')' then
        "(已隐藏)".data ++ redact_qq_go fuel (rest.drop (ds + 1))
      else
        c :: redact_qq_go fuel rest
    else
      match rest with
      | c1 :: c2 :: c3 :: r3 =>
        if ascii_lower c = 'q' ∧ ascii_lower c1 = 'q' ∧ ascii_lower c2 = '=' ∧
            is_digit c3 = true then
          let ds := digit_span_len (c3 :: r3) 12
          if 5 ≤ ds ∧ ds ≤ 12 then
            c :: c1 :: c2 :: ("已隐藏".data ++ redact_qq_go fuel ((c3 :: r3).drop ds))
          else
            c :: redact_qq_go fuel (c1 :: c2 :: c3 :: r3)
        else if ascii_lower c = 'u' ∧ ascii_lower c1 = 'i' ∧ ascii_lower c2 = 'n' ∧
            c3 = '=' ∧ head_is_digit r3 = true then
          let ds := digit_span_len r3 12
          if 5 ≤ ds ∧ ds ≤ 12 then
            c :: c1 :: c2 :: c3 :: ("已隐藏".data ++ redact_qq_go fuel (r3.drop ds))
          else
            c :: redact_qq_go fuel (c1 :: c2 :: c3 :: r3)
        else
          c :: redact_qq_go fuel (c1 :: c2 :: c3 :: r3)
      | _ => c :: redact_qq_go fuel rest

/-- Embedding of `redact.rs::redact_qq_ids`. -/
def redact_qq_ids (s : String) : String :=
  String.mk (redact_qq_go s.data.length s.data)

/-! ### `api.rs` sanitization pipeline (claim C5)
`sanitize_outgoing_text` = CQ protection + `redact_sensitive_ids_plaintext`
(sensitive-id substitution, then opportunistic digit-token redaction) +
placeholder restoration.  The OneBot name-resolution calls
(`resolve_group_member_name`, `resolve_stranger_name`) are external RPCs
modelled as function parameters `rg`/`rs`; per the source they return
trimmed non-empty nicknames when they succeed. -/

/-- One scan step of Rust `String::replace` (leftmost match, replace all,
non-overlapping), fuelled by the input length. -/
def replace_go (pat repl : List Char) : Nat → List Char → List Char
  | 0, l => l
  | _ + 1, [] => []
  | fuel + 1, c :: rest =>
    if starts_with pat (c :: rest) = true then
      repl ++ replace_go pat repl fuel ((c :: rest).drop pat.length)
    else
      c :: replace_go pat repl fuel rest

/-- Rust `str::replace(pat, repl)`.  Every call site in the embedded code
guards against the empty pattern (`is_empty` checks), for which the model
returns the input unchanged. -/
def rust_replace (l pat repl : List Char) : List Char :=
  if pat = [] then l else replace_go pat repl l.length l

/-- Rust `str::find` with a string pattern (index of the first
occurrence). -/
def find_idx (pat : List Char) : List Char → Option Nat
  | [] => if starts_with pat [] = true then some 0 else none
  | l@(_ :: rest) =>
    if starts_with pat l = true then some 0
    else (find_idx pat rest).map (· + 1)

/-- `api.rs::protect_cq_segments` (lines 180-206): cut out each
`[CQ:…]` segment, emit a `__NBOT_CQ_SEG_i__` placeholder, and collect the
`(placeholder, segment)` pairs. -/
def protect_cq_go : Nat → Nat → List Char → List Char × List (List Char × List Char)
  | 0, _, rest => (rest, [])
  | fuel + 1, idx, rest =>
    match find_idx "[CQ:".data rest with
    | none => (rest, [])
    | some start =>
      let before := rest.take start
      let after := rest.drop start
      match find_idx "]".data after with
      | none => (rest, [])
      | some end_rel =>
        let seg := after.take (end_rel + 1)
        let rest' := after.drop (end_rel + 1)
        let placeholder := ("__NBOT_CQ_SEG_" ++ toString idx ++ "__").data
        let r := protect_cq_go fuel (idx + 1) rest'
        (before ++ placeholder ++ r.1, (placeholder, seg) :: r.2)

/-- `api.rs::protect_cq_segments`, fuelled by the input length (each
iteration consumes at least one character). -/
def protect_cq_segments (l : List Char) : List Char × List (List Char × List Char) :=
  protect_cq_go l.length 0 l

/-- Maximal digit runs of the input, in order
(`api.rs::extract_digit_tokens` before length filtering and dedup). -/
def extract_runs_go : Nat → List Char → List (List Char)
  | 0, _ => []
  | _ + 1, [] => []
  | fuel + 1, c :: rest =>
    if is_digit c = true then
      (c :: rest.takeWhile is_digit) :: extract_runs_go fuel (rest.dropWhile is_digit)
    else
      extract_runs_go fuel rest

/-- Order-preserving first-occurrence dedup (the `seen : HashSet` of
`extract_digit_tokens`). -/
def push_unseen (seen : List (List Char)) : List (List Char) → List (List Char)
  | [] => []
  | t :: ts =>
    if seen.contains t then push_unseen seen ts
    else t :: push_unseen (t :: seen) ts

/-- `api.rs::extract_digit_tokens(s, min_len, max_len)` (lines 77-104):
maximal digit runs with length in `[min_len, max_len]`, first occurrences
only, in order. -/
def extract_digit_tokens (l : List Char) (min_len max_len : Nat) : List (List Char) :=
  push_unseen []
    ((extract_runs_go l.length l).filter
      (fun t => min_len ≤ t.length ∧ t.length ≤ max_len))

/-- Numeric value of a digit string. -/
def digits_to_nat (l : List Char) : Nat :=
  l.foldl (fun a c => a * 10 + (c.toNat - 48)) 0

/-- Rust `str::parse::<u64>` restricted to the digit tokens it is applied
to (plain decimal digits; overflow yields `Err`). -/
def parse_u64 (l : List Char) : Option Nat :=
  if l ≠ [] ∧ l.all is_digit = true then
    if digits_to_nat l < 2 ^ 64 then some (digits_to_nat l) else none
  else none

/-- The `uid = token.parse().ok().filter(|v| *v > 0)` step. -/
def parse_positive_u64 (l : List Char) : Option Nat :=
  match parse_u64 l with
  | some v => if 0 < v then some v else none
  | none => none

/-- The `for id in ids` loop of `redact_sensitive_ids_plaintext`
(`api.rs` lines 110-131): replace each sensitive id with its resolved name
(`成员` when resolution fails), sharing a cache with the opportunistic
pass. -/
def sensitive_ids_loop (rg : Nat → Nat → Option (List Char))
    (rs : Nat → Option (List Char)) (group_id : Option Nat) :
    List (List Char) → List (List Char × List Char) → List Char →
    List Char × List (List Char × List Char)
  | [], cache, out => (out, cache)
  | id :: ids, cache, out =>
    if id = [] ∨ str_contains id out = false then
      sensitive_ids_loop rg rs group_id ids cache out
    else
      match cache.lookup id with
      | some repl =>
        sensitive_ids_loop rg rs group_id ids cache (rust_replace out id repl)
      | none =>
        let name :=
          match group_id, parse_positive_u64 id with
          | some gid, some u => rg gid u
          | none, some u => rs u
          | _, _ => none
        let repl := name.getD "成员".data
        sensitive_ids_loop rg rs group_id ids ((id, repl) :: cache)
          (rust_replace out id repl)

/-- The opportunistic digit-token pass of `redact_sensitive_ids_plaintext`
(`api.rs` lines 135-169): up to 8 resolution attempts; a resolved token is
replaced by the nickname (group member first, stranger as fallback), an
unresolved one is left in place. -/
def opportunistic_redact (rg : Nat → Nat → Option (List Char))
    (rs : Nat → Option (List Char)) (group_id : Option Nat) :
    List (List Char) → Nat → List (List Char × List Char) → List Char → List Char
  | [], _, _, out => out
  | t :: ts, attempts, cache, out =>
    if 8 ≤ attempts then out
    else if t = [] ∨ str_contains t out = false then
      opportunistic_redact rg rs group_id ts attempts cache out
    else
      match cache.lookup t with
      | some repl =>
        opportunistic_redact rg rs group_id ts attempts cache
          (rust_replace out t repl)
      | none =>
        match parse_positive_u64 t with
        | none => opportunistic_redact rg rs group_id ts attempts cache out
        | some uid =>
          let name :=
            match group_id with
            | some gid =>
              match rg gid uid with
              | some nm => some nm
              | none => rs uid
            | none => rs uid
          match name with
          | none => opportunistic_redact rg rs group_id ts (attempts + 1) cache out
          | some nm =>
            opportunistic_redact rg rs group_id ts (attempts + 1)
              ((t, nm) :: cache) (rust_replace out t nm)

/-- Embedding of `api.rs::redact_sensitive_ids_plaintext` (lines 71-172). -/
def redact_sensitive_ids_plaintext (rg : Nat → Nat → Option (List Char))
    (rs : Nat → Option (List Char)) (group_id : Option Nat)
    (sensitive_ids : List (List Char)) (message : List Char) : List Char :=
  let r := sensitive_ids_loop rg rs group_id sensitive_ids [] message
  opportunistic_redact rg rs group_id (extract_digit_tokens r.1 5 12) 0 r.2 r.1

/-- Embedding of `api.rs::sanitize_outgoing_text` (lines 174-214): protect
CQ segments, redact, restore placeholders. -/
def sanitize_outgoing_text (rg : Nat → Nat → Option (List Char))
    (rs : Nat → Option (List Char)) (group_id : Option Nat)
    (sensitive_ids : List (List Char)) (message : List Char) : List Char :=
  let p := protect_cq_segments message
  let out := redact_sensitive_ids_plaintext rg rs group_id sensitive_ids p.1
  p.2.foldl (fun o pr => rust_replace o pr.1 pr.2) out

/-- The outbound privacy redaction applied to an LLM reply: the pattern pass
`redact_qq_ids` (`multimodal/common/forward.rs` line 25) followed by the
send-path sanitization `sanitize_outgoing_text` (`api.rs`, reached through
`send_api`/`send_reply`). -/
def outbound_redaction (rg : Nat → Nat → Option (List Char))
    (rs : Nat → Option (List Char)) (group_id : Option Nat)
    (sensitive_ids : List (List Char)) (s : String) : String :=
  String.mk (sanitize_outgoing_text rg rs group_id sensitive_ids
    (redact_qq_ids s).data)

end NBot

namespace NBot

/-! ## Theorems for claims C9, C8, C2, C7 -/

/-- Auxiliary: strict monotonicity of `fun i => i * t / k` when `k ≤ t` and
`0 < k`. -/
theorem mul_div_strict_mono {k t : Nat} (hk : 0 < k) (hkt : k ≤ t) :
    ∀ {i j : Nat}, i < j → i * t / k < j * t / k := by
  intro i j hij
  have h1 : i * t / k + 1 ≤ (i + 1) * t / k := by
    have h2 : i * t + k ≤ (i + 1) * t := by
      have := Nat.add_le_add_left hkt (i * t)
      simpa [Nat.succ_mul] using this
    calc i * t / k + 1 = (i * t + k) / k := (Nat.add_div_right _ hk).symm
      _ ≤ (i + 1) * t / k := Nat.div_le_div_right h2
  have h3 : (i + 1) * t / k ≤ j * t / k :=
    Nat.div_le_div_right (Nat.mul_le_mul_right t hij)
  omega

/-- C9 counterexample.  At the `usize`-boundary input `total = 2^64 - 1`,
`keep = 3` the saturating multiplication caps `2 * (2^64 - 2)` at
`usize::MAX`, so the function returns the duplicate indices
`[0, 2^63 - 1, 2^63 - 1]`: the claimed pairwise distinctness / strict
increase fails for the program there. -/
theorem evenly_spaced_indices_counterexample :
    (1 ≤ 3 ∧ 3 ≤ 2 ^ 64 - 1) ∧
    evenly_spaced_indices (2 ^ 64 - 1) 3 = [0, 2 ^ 63 - 1, 2 ^ 63 - 1] ∧
    ¬ (evenly_spaced_indices (2 ^ 64 - 1) 3).Pairwise (· < ·) ∧
    ¬ (evenly_spaced_indices (2 ^ 64 - 1) 3).Nodup := by
  refine ⟨⟨by decide, by decide⟩, ?_, ?_, ?_⟩
  · decide
  · decide
  · decide

/-- C9 amended.  For all `total`, `keep` with `1 ≤ keep ≤ total` such that
the index computation does not saturate
(`(keep - 1) * (total - 1) < 2^64`), `evenly_spaced_indices total keep` has
length `keep`, is strictly increasing (hence pairwise distinct), every
element lies in `[0, total)`, and for `keep = 1` the result is exactly
`[total / 2]`. -/
theorem evenly_spaced_indices_spec (total keep : Nat)
    (h1 : 1 ≤ keep) (h2 : keep ≤ total)
    (hsat : (keep - 1) * (total - 1) < 2 ^ 64) :
    (evenly_spaced_indices total keep).length = keep ∧
    (evenly_spaced_indices total keep).Pairwise (· < ·) ∧
    (∀ x ∈ evenly_spaced_indices total keep, x < total) ∧
    (keep = 1 → evenly_spaced_indices total keep = [total / 2]) := by
  by_cases hge : keep ≥ total
  · have hkt : keep = total := le_antisymm h2 hge
    have hval : evenly_spaced_indices total keep = List.range total := by
      unfold evenly_spaced_indices
      rw [if_neg (by omega), if_pos hge]
    rw [hval]
    refine ⟨by simp [hkt], by simpa using List.pairwise_lt_range total,
      by intro x hx; simpa using hx, ?_⟩
    intro hk1
    have h1t : total = 1 := by omega
    subst h1t
    decide
  · have hlt : keep < total := lt_of_not_ge hge
    by_cases hk1 : keep = 1
    · have hval : evenly_spaced_indices total keep = [total / 2] := by
        unfold evenly_spaced_indices
        rw [if_neg (by omega), if_neg hge, if_pos hk1]
      rw [hval]
      refine ⟨by simp [hk1], by simp, ?_, fun _ => rfl⟩
      intro x hx
      simp only [List.mem_singleton] at hx
      subst hx
      exact Nat.div_lt_self (by omega) (by omega)
    · have hval : evenly_spaced_indices total keep =
          (List.range keep).map
            (fun i => saturating_mul_u64 i (total - 1) / (keep - 1)) := by
        unfold evenly_spaced_indices
        rw [if_neg (by omega), if_neg hge, if_neg hk1]
      rw [hval]
      have hk0 : 0 < keep - 1 := by omega
      have hkt : keep - 1 ≤ total - 1 := by omega
      have hexact : ∀ i : Nat, i < keep →
          saturating_mul_u64 i (total - 1) = i * (total - 1) := by
        intro i hi
        have hub : i * (total - 1) ≤ (keep - 1) * (total - 1) :=
          Nat.mul_le_mul_right _ (by omega)
        unfold saturating_mul_u64
        exact Nat.min_eq_left (by omega)
      refine ⟨by simp, ?_, ?_, fun h => absurd h hk1⟩
      · rw [List.pairwise_map]
        refine List.Pairwise.imp_of_mem ?_ (List.pairwise_lt_range keep)
        intro a b ha hb hab
        rw [List.mem_range] at ha hb
        rw [hexact a ha, hexact b hb]
        exact mul_div_strict_mono hk0 hkt hab
      · intro x hx
        simp only [List.mem_map, List.mem_range] at hx
        obtain ⟨i, hi, rfl⟩ := hx
        rw [hexact i hi]
        have hle : i * (total - 1) / (keep - 1) ≤ (keep - 1) * (total - 1) / (keep - 1) :=
          Nat.div_le_div_right (Nat.mul_le_mul_right _ (by omega))
        have heq : (keep - 1) * (total - 1) / (keep - 1) = total - 1 :=
          Nat.mul_div_cancel_left _ hk0
        omega

/-- C9 witness: a concrete non-saturating instantiation,
`evenly_spaced_indices 10 3`. -/
theorem evenly_spaced_indices_spec_witness :
    (1 ≤ 3 ∧ 3 ≤ 10 ∧ (3 - 1) * (10 - 1) < 2 ^ 64) ∧
    ((evenly_spaced_indices 10 3).length = 3 ∧
     (evenly_spaced_indices 10 3).Pairwise (· < ·) ∧
     (∀ x ∈ evenly_spaced_indices 10 3, x < 10) ∧
     (3 = 1 → evenly_spaced_indices 10 3 = [10 / 2])) :=
  ⟨⟨by decide, by decide, by decide⟩,
    evenly_spaced_indices_spec 10 3 (by decide) (by decide) (by decide)⟩

/-- C8.  The Discord reconnect delay starts at 1 second, each step doubles it
capped at 30 seconds, and at every step of the loop the slept delay is at
least 1 and never exceeds 30 seconds. -/
theorem discord_backoff_invariant :
    backoff_at 0 = 1 ∧
    (∀ n, backoff_at (n + 1) = min (backoff_at n * 2) 30) ∧
    (∀ n, 1 ≤ backoff_at n ∧ backoff_at n ≤ 30) := by
  refine ⟨rfl, fun n => rfl, ?_⟩
  intro n
  induction n with
  | zero => exact ⟨by decide, by decide⟩
  | succ k ih =>
    have : backoff_at (k + 1) = min (backoff_at k * 2) 30 := rfl
    rw [this]
    omega

/-- C2 counterexample.  At the concrete instant 1 700 000 000 000 000 000 ns
after the Unix epoch, the frame produced by the fire-and-forget path
`send_api` for action `send_group_msg` does not carry
`"<action>_<nanos>"` as its echo: `send_api` uses `as_millis`, not
`as_nanos`. -/
theorem send_api_echo_not_nanos :
    (send_api_frame "send_group_msg" () 1700000000000000000).echo ≠
      "send_group_msg" ++ "_" ++ toString 1700000000000000000 ∧
    (send_api_frame "send_group_msg" () 1700000000000000000).echo =
      "send_group_msg_1700000000000" := by
  constructor
  · decide
  · rfl

/-- C2 amended.  Every outgoing frame of the awaited RPC path
`BotRuntime::call_api` carries `echo = action ++ "_" ++ nanos`, while every
frame of the fire-and-forget path `send_api` carries
`echo = action ++ "_" ++ millis` where millis is the same epoch duration in
milliseconds (`nanos / 10^6`); both echoes always start with the action name
followed by an underscore. -/
theorem outgoing_frame_echo_format {P : Type} (action : String) (params : P)
    (epoch_nanos : Nat) :
    (call_api_frame action params epoch_nanos).echo =
      action ++ "_" ++ toString epoch_nanos ∧
    (send_api_frame action params epoch_nanos).echo =
      action ++ "_" ++ toString (epoch_nanos / 1000000) ∧
    (call_api_frame action params epoch_nanos).action = action ∧
    (send_api_frame action params epoch_nanos).action = action :=
  ⟨rfl, rfl, rfl, rfl⟩

/-- C7.  With the candidate list `logs/latest.log` (500 KB) and
`logs/debug.log` (2 MB) and keyword list `["latest"]`, `choose_best_file`
selects `logs/latest.log`, and its score strictly exceeds the other
candidate's. -/
theorem choose_best_file_latest_log :
    choose_best_file
        [⟨"logs/latest.log", 500000⟩, ⟨"logs/debug.log", 2000000⟩]
        ["latest"] = some ⟨"logs/latest.log", 500000⟩ ∧
    candidate_score (normalize_keywords ["latest"]) ⟨"logs/latest.log", 500000⟩ >
      candidate_score (normalize_keywords ["latest"]) ⟨"logs/debug.log", 2000000⟩ := by
  constructor
  · rfl
  · decide

/-! ## Theorems for claim C6 -/

/-- Characters of the storage-key class are never Unicode whitespace. -/
theorem storage_key_char_not_ws (c : Char) (hc : is_storage_key_char c = true) :
    is_rust_whitespace c = false := by
  have hn : c.toNat = 95 ∨ c.toNat = 45 ∨ c.toNat = 46 ∨
      (48 ≤ c.toNat ∧ c.toNat ≤ 57) ∨ (65 ≤ c.toNat ∧ c.toNat ≤ 90) ∨
      (97 ≤ c.toNat ∧ c.toNat ≤ 122) := by
    simp only [is_storage_key_char, is_ascii_alphanumeric, Bool.or_eq_true,
      Bool.and_eq_true, decide_eq_true_eq] at hc
    rcases hc with ((((h1 | h2) | h3) | h4) | h5) | h6
    · exact Or.inr (Or.inr (Or.inr (Or.inl h1)))
    · exact Or.inr (Or.inr (Or.inr (Or.inr (Or.inl h2))))
    · exact Or.inr (Or.inr (Or.inr (Or.inr (Or.inr h3))))
    · subst h4; decide
    · subst h5; decide
    · subst h6; decide
  rw [← Bool.not_eq_true]
  simp only [is_rust_whitespace, Bool.or_eq_true, Bool.and_eq_true, decide_eq_true_eq]
  omega

/-- A list whose characters are all non-whitespace is fixed by
`rust_trim`. -/
theorem rust_trim_of_no_ws (l : List Char)
    (h : ∀ c ∈ l, is_rust_whitespace c = false) : rust_trim l = l := by
  have hdrop : ∀ (m : List Char), (∀ c ∈ m, is_rust_whitespace c = false) →
      m.dropWhile is_rust_whitespace = m := by
    intro m hm
    cases m with
    | nil => rfl
    | cons c rest =>
      have hc := hm c (List.mem_cons_self c rest)
      simp [List.dropWhile, hc]
  unfold rust_trim
  rw [hdrop _ h, hdrop, List.reverse_reverse]
  intro c hcmem
  exact h c (List.mem_reverse.mp hcmem)

/-- Storage-key-class characters occupy one UTF-8 byte. -/
theorem storage_key_char_utf8_size (c : Char) (hc : is_storage_key_char c = true) :
    char_utf8_size c = 1 := by
  have hn : c.toNat ≤ 127 := by
    simp only [is_storage_key_char, is_ascii_alphanumeric, Bool.or_eq_true,
      Bool.and_eq_true, decide_eq_true_eq] at hc
    rcases hc with ((((h1 | h2) | h3) | h4) | h5) | h6
    · omega
    · omega
    · omega
    · subst h4; decide
    · subst h5; decide
    · subst h6; decide
  rw [char_utf8_size, if_pos hn]

/-- For an all-class list the UTF-8 byte count equals the character count. -/
theorem utf8_len_of_class (l : List Char) (h : l.all is_storage_key_char = true) :
    utf8_len l = l.length := by
  have haux : ∀ (m : List Char) (a : Nat), m.all is_storage_key_char = true →
      m.foldl (fun a c => a + char_utf8_size c) a = a + m.length := by
    intro m
    induction m with
    | nil => intro a _; simp
    | cons c rest ih =>
      intro a hm
      simp only [List.all_cons, Bool.and_eq_true] at hm
      simp only [List.foldl_cons, List.length_cons,
        storage_key_char_utf8_size c hm.1, ih (a + 1) hm.2]
      omega
  simpa using haux l 0 h

/-- The specification's character class implies the Rust `is_safe` test. -/
theorem charset_implies_safe (l : List Char) (h : key_in_charset l = true) :
    is_safe_storage_key l = true := by
  simp only [key_in_charset, Bool.and_eq_true, decide_eq_true_eq] at h
  simp only [is_safe_storage_key, Bool.and_eq_true, decide_eq_true_eq]
  exact ⟨⟨h.1.1, by rw [utf8_len_of_class l h.2]; exact h.1.2⟩, h.2⟩

/-- The Rust `is_safe` test implies the specification's character class. -/
theorem safe_implies_charset (l : List Char) (h : is_safe_storage_key l = true) :
    key_in_charset l = true := by
  simp only [is_safe_storage_key, Bool.and_eq_true, decide_eq_true_eq] at h
  simp only [key_in_charset, Bool.and_eq_true, decide_eq_true_eq]
  exact ⟨⟨h.1.1, by rw [← utf8_len_of_class l h.2]; exact h.1.2⟩, h.2⟩

/-- C6 counterexample.  For the key `" abc "` (leading/trailing blanks), the
key is outside the class `[A-Za-z0-9_.-]{1,64}`, yet — whatever the hash
function is — the filename is the trimmed key `"abc"`, which is not of the
form `"key_" ++ digest`.  The claim's "otherwise exactly
`key_` + sha256(key)" branch is therefore false at this input. -/
theorem safe_storage_key_filename_counterexample :
    key_in_charset " abc ".data = false ∧
    safe_storage_key_filename (fun k => k) " abc ".data = "abc".data ∧
    (∀ h : List Char → List Char,
      safe_storage_key_filename h " abc ".data = "abc".data) ∧
    (∀ s : List Char, "abc".data ≠ "key_".data ++ s) := by
  refine ⟨by decide, rfl, fun h => rfl, ?_⟩
  intro s hcontra
  have hlen := congrArg List.length hcontra
  simp at hlen

/-- C6 amended.  The filename is the *trimmed* key when the trimmed key
matches `[A-Za-z0-9_.-]{1,64}` (in particular a key already in the class is
used verbatim), and otherwise is exactly `"key_"` followed by the SHA-256 hex
digest of the trimmed key; a key outside the class is never used verbatim as
a filename unless it coincides with the `key_`-digest name of its own
trimmed form. -/
theorem safe_storage_key_filename_spec (sha256_hex : List Char → List Char)
    (key : List Char) :
    (key_in_charset key = true → safe_storage_key_filename sha256_hex key = key) ∧
    (is_safe_storage_key (rust_trim key) = true →
      safe_storage_key_filename sha256_hex key = rust_trim key) ∧
    (is_safe_storage_key (rust_trim key) = false →
      safe_storage_key_filename sha256_hex key = "key_".data ++ sha256_hex (rust_trim key)) ∧
    (key_in_charset key = false →
      safe_storage_key_filename sha256_hex key ≠ key ∨
      key = "key_".data ++ sha256_hex (rust_trim key)) := by
  have hpart2 : is_safe_storage_key (rust_trim key) = true →
      safe_storage_key_filename sha256_hex key = rust_trim key := by
    intro h
    unfold safe_storage_key_filename
    rw [if_pos h]
  have hpart3 : is_safe_storage_key (rust_trim key) = false →
      safe_storage_key_filename sha256_hex key =
        "key_".data ++ sha256_hex (rust_trim key) := by
    intro h
    unfold safe_storage_key_filename
    rw [if_neg (by simp [h])]
  refine ⟨?_, hpart2, hpart3, ?_⟩
  · intro h
    have hall : ∀ c ∈ key, is_rust_whitespace c = false := by
      intro c hcmem
      apply storage_key_char_not_ws
      have hcls : key.all is_storage_key_char = true := by
        simp only [key_in_charset, Bool.and_eq_true] at h
        exact h.2
      exact List.all_eq_true.mp hcls c hcmem
    have htrim : rust_trim key = key := rust_trim_of_no_ws key hall
    have hsafe : is_safe_storage_key (rust_trim key) = true := by
      rw [htrim]; exact charset_implies_safe key h
    rw [hpart2 hsafe, htrim]
  · intro h
    by_cases hs : is_safe_storage_key (rust_trim key) = true
    · left
      intro hcontra
      rw [hpart2 hs] at hcontra
      have hsk : is_safe_storage_key key = true := by
        rw [← hcontra]; exact hs
      have hck : key_in_charset key = true := safe_implies_charset key hsk
      rw [h] at hck
      exact Bool.false_ne_true hck
    · have hs' : is_safe_storage_key (rust_trim key) = false :=
        Bool.eq_false_iff.mpr hs
      by_cases hk : key = "key_".data ++ sha256_hex (rust_trim key)
      · exact Or.inr hk
      · left
        rw [hpart3 hs']
        exact fun hcontra => hk hcontra.symm

/-- C6 amended, witness: the key `"abc"` is in the class and is used
verbatim. -/
theorem safe_storage_key_filename_spec_witness :
    key_in_charset "abc".data = true ∧
    safe_storage_key_filename (fun k => k) "abc".data = "abc".data :=
  ⟨by decide, (safe_storage_key_filename_spec (fun k => k) "abc".data).1 (by decide)⟩

/-! ## Theorems for claim C4 -/

/-- On a minimum-interval block, the gate's final state is exactly the
incoming state with the three inflight counters decremented (group only when
`gid ≠ 0`) and the last-start map untouched. -/
theorem llm_interval_gate_error (cfg : LlmAbuseConfig) (uid gid now : Nat)
    (st : AbuseState) (e : LlmAbuseBlock)
    (h : (llm_interval_gate cfg uid gid now st).1 = .error e) :
    (llm_interval_gate cfg uid gid now st).2 =
      { st with
        global_inflight := st.global_inflight - 1
        user_inflight := dec_at st.user_inflight uid
        group_inflight :=
          if gid ≠ 0 then dec_at st.group_inflight gid else st.group_inflight } := by
  by_cases hmin : cfg.min_interval_per_user ≠ 0
  · cases hls : st.user_last_start uid with
    | none =>
      simp only [llm_interval_gate, if_pos hmin, hls] at h
      exact absurd h (by simp)
    | some last =>
      by_cases hel : now - last < cfg.min_interval_per_user
      · simp only [llm_interval_gate, if_pos hmin, hls, if_pos hel]
      · simp only [llm_interval_gate, if_pos hmin, hls, if_neg hel] at h
        exact absurd h (by simp)
  · simp only [llm_interval_gate, if_neg hmin] at h
    exact absurd h (by simp)

/-- C4.  Whenever `try_begin_llm_task` rejects (returns `Err`), the global
inflight counter, the user's inflight counter, the group's inflight counter
and the user's last-start timestamp all have the same values after the call
as before it. -/
theorem try_begin_llm_task_reject_no_side_effect
    (cfg : LlmAbuseConfig) (uid gid now : Nat) (st : AbuseState) (e : LlmAbuseBlock)
    (h : (try_begin_llm_task cfg uid gid now st).1 = .error e) :
    (try_begin_llm_task cfg uid gid now st).2.global_inflight = st.global_inflight ∧
    (try_begin_llm_task cfg uid gid now st).2.user_inflight uid = st.user_inflight uid ∧
    (try_begin_llm_task cfg uid gid now st).2.group_inflight gid = st.group_inflight gid ∧
    (try_begin_llm_task cfg uid gid now st).2.user_last_start uid = st.user_last_start uid := by
  by_cases hen : cfg.enabled = false
  · simp only [try_begin_llm_task, if_pos hen] at h
    exact absurd h (by simp)
  · by_cases hg : st.global_inflight ≥ cfg.max_concurrent_global
    · have hres : try_begin_llm_task cfg uid gid now st =
          (.error ⟨"当前分析请求过多，请稍后再试"⟩, st) := by
        simp only [try_begin_llm_task, if_neg hen, try_inc_global, if_pos hg]
      rw [hres]
      exact ⟨rfl, rfl, rfl, rfl⟩
    · have hg' : try_inc_global st.global_inflight cfg.max_concurrent_global =
          (true, st.global_inflight + 1) := by
        simp [try_inc_global, hg]
      by_cases hu : st.user_inflight uid ≥ cfg.max_concurrent_per_user
      · have hres : try_begin_llm_task cfg uid gid now st =
            (.error ⟨"你有一个正在进行的分析任务，请等待完成后再试"⟩,
             { st with global_inflight := st.global_inflight + 1 - 1 }) := by
          simp only [try_begin_llm_task, if_neg hen, hg', try_inc_inflight, if_pos hu]
        rw [hres]
        refine ⟨by simp, rfl, rfl, rfl⟩
      · have hu' : try_inc_inflight st.user_inflight uid cfg.max_concurrent_per_user =
            (true, inc_at st.user_inflight uid) := by
          simp [try_inc_inflight, hu]
        by_cases hgid : gid = 0
        · have hres : try_begin_llm_task cfg uid gid now st =
              llm_interval_gate cfg uid gid now
                { st with global_inflight := st.global_inflight + 1
                          user_inflight := inc_at st.user_inflight uid } := by
            simp only [try_begin_llm_task, if_neg hen, hg', hu', if_pos hgid]
          rw [hres] at h ⊢
          rw [llm_interval_gate_error _ _ _ _ _ _ h]
          refine ⟨by simp, by simp [dec_at, inc_at], by simp [hgid], rfl⟩
        · by_cases hgrp : st.group_inflight gid ≥ cfg.max_concurrent_per_group
          · have hgrp2 : try_inc_inflight st.group_inflight gid cfg.max_concurrent_per_group =
                (false, st.group_inflight) := by
              simp [try_inc_inflight, hgrp]
            have hres : try_begin_llm_task cfg uid gid now st =
                (.error ⟨"当前群内已有分析任务在进行，请稍后再试"⟩,
                 { st with
                    global_inflight := st.global_inflight + 1 - 1
                    user_inflight := dec_at (inc_at st.user_inflight uid) uid }) := by
              simp only [try_begin_llm_task, if_neg hen, hg', hu', if_neg hgid, hgrp2]
            rw [hres]
            refine ⟨by simp, by simp [dec_at, inc_at], rfl, rfl⟩
          · have hgrp' : try_inc_inflight st.group_inflight gid cfg.max_concurrent_per_group =
                (true, inc_at st.group_inflight gid) := by
              simp [try_inc_inflight, hgrp]
            have hres : try_begin_llm_task cfg uid gid now st =
                llm_interval_gate cfg uid gid now
                  { st with global_inflight := st.global_inflight + 1
                            user_inflight := inc_at st.user_inflight uid
                            group_inflight := inc_at st.group_inflight gid } := by
              simp only [try_begin_llm_task, if_neg hen, hg', hu', if_neg hgid, hgrp']
            rw [hres] at h ⊢
            rw [llm_interval_gate_error _ _ _ _ _ _ h]
            refine ⟨by simp, by simp [dec_at, inc_at], ?_, rfl⟩
            simp only [if_pos hgid]
            simp [dec_at, inc_at]

/-! ## Theorems for claim C1 -/

/-- `starts_with` is stable under extending the scanned list on the
right. -/
theorem starts_with_append (pat l r : List Char) (h : starts_with pat l = true) :
    starts_with pat (l ++ r) = true := by
  induction pat generalizing l with
  | nil => rfl
  | cons c cs ih =>
    cases l with
    | nil => exact absurd h (by simp [starts_with])
    | cons x xs =>
      simp only [starts_with, Bool.and_eq_true] at h
      simp only [List.cons_append, starts_with, Bool.and_eq_true]
      exact ⟨h.1, ih xs h.2⟩

/-- A list starting with `pat` contains `pat`. -/
theorem str_contains_of_starts (pat l : List Char) (h : starts_with pat l = true) :
    str_contains pat l = true := by
  cases l with
  | nil => exact h
  | cons c rest => simp [str_contains, h]

/-- The "Image too large" phrase occurs in every budget-failure message. -/
theorem image_too_large_msg_contains (budget : Nat) :
    str_contains "Image too large".data (image_too_large_msg budget).data = true := by
  apply str_contains_of_starts
  have hdata : (image_too_large_msg budget).data =
      "Image too large: cannot compress within ".data ++
        ((toString budget).data ++ " bytes".data) := by
    simp [image_too_large_msg, String.data_append]
  rw [hdata]
  exact starts_with_append _ _ _ (by decide)

/-- Budget bound for every exit of the compression loop. -/
theorem compress_loop_spec (enc : Nat → Nat → Nat → Nat) (jq budget : Nat) :
    ∀ (fuel w h q : Nat),
      (∀ r, compress_loop enc jq budget fuel w h q = .ok r →
        r.2.output_bytes ≤ budget ∧ r.1 = data_url_len r.2.output_bytes) ∧
      (∀ msg, compress_loop enc jq budget fuel w h q = .error msg →
        msg = image_too_large_msg budget) := by
  intro fuel
  induction fuel with
  | zero =>
    intro w h q
    exact ⟨fun r hr => by simp [compress_loop] at hr,
      fun msg hmsg => by simpa [compress_loop] using hmsg.symm⟩
  | succ f ih =>
    intro w h q
    by_cases hfit : enc w h q ≤ budget
    · refine ⟨fun r hr => ?_, fun msg hmsg => ?_⟩
      · simp only [compress_loop, if_pos hfit] at hr
        cases hr
        exact ⟨hfit, rfl⟩
      · simp only [compress_loop, if_pos hfit] at hmsg
        cases hmsg
    · by_cases hq : q > 50
      · have hstep : compress_loop enc jq budget (f + 1) w h q =
            compress_loop enc jq budget f w h (max (q - 10) 50) := by
          simp only [compress_loop, if_neg hfit, if_pos hq]
        rw [hstep]
        exact ih w h (max (q - 10) 50)
      · by_cases hsame : shrink_085 w = w ∧ shrink_085 h = h
        · have hstep : compress_loop enc jq budget (f + 1) w h q =
              .error (image_too_large_msg budget) := by
            simp only [compress_loop, if_neg hfit, if_neg hq, if_pos hsame]
          rw [hstep]
          refine ⟨fun r hr => ?_, fun msg hmsg => ?_⟩
          · cases hr
          · cases hmsg
            rfl
        · have hstep : compress_loop enc jq budget (f + 1) w h q =
              compress_loop enc jq budget f (shrink_085 w) (shrink_085 h)
                (min (max jq 30) 95) := by
            simp only [compress_loop, if_neg hfit, if_neg hq, if_neg hsame]
          rw [hstep]
          exact ih (shrink_085 w) (shrink_085 h) (min (max jq 30) 95)

/-- C1 counterexample.  The claim bounds the successful output by the
requested `max_output_bytes = N`; the code clamps the budget into
`[50 000, 10 000 000]` first, and compares the raw JPEG payload, not the
data-URL text.  With a (realisable) encoder producing 40 000 bytes and
`N = 1024`, the call succeeds with a 40 000-byte payload; and with a
50 000-byte payload at `N = 50 000` the returned data URL itself is 66 691
bytes, above `N`. -/
theorem prepare_image_data_url_counterexample :
    prepare_image_data_url (fun _ _ _ => 40000) 100 100 100 100 80 1024 =
      .ok (data_url_len 40000, ⟨100, 100, 40000, 80⟩) ∧
    ¬(40000 ≤ 1024) ∧ data_url_len 40000 = 53359 ∧
    prepare_image_data_url (fun _ _ _ => 50000) 100 100 100 100 80 50000 =
      .ok (data_url_len 50000, ⟨100, 100, 50000, 80⟩) ∧
    data_url_len 50000 = 66691 ∧ ¬(data_url_len 50000 ≤ 50000) := by
  refine ⟨?_, ?_, ?_, ?_, ?_, ?_⟩
  · rfl
  · decide
  · decide
  · rfl
  · decide
  · decide

/-- C1 amended.  For every decoded input image and every requested
`max_output_bytes = N`, `prepare_image_data_url` either succeeds with a JPEG
payload of at most `clamp(N, 50 000, 10 000 000)` bytes (the data URL being
that payload base64-encoded after a 23-character header), or fails with an
error message containing "Image too large", after at most 10 adjustment
iterations (a quality reduction by 10 floored at 50, or a 0.85× dimension
shrink). -/
theorem prepare_image_data_url_budget (enc : Nat → Nat → Nat → Nat)
    (orig_w orig_h max_w max_h jpeg_quality max_output_bytes : Nat) :
    (∀ r, prepare_image_data_url enc orig_w orig_h max_w max_h jpeg_quality
        max_output_bytes = .ok r →
      r.2.output_bytes ≤ min (max max_output_bytes 50000) 10000000 ∧
      r.1 = data_url_len r.2.output_bytes) ∧
    (∀ msg, prepare_image_data_url enc orig_w orig_h max_w max_h jpeg_quality
        max_output_bytes = .error msg →
      str_contains "Image too large".data msg.data = true) := by
  have hspec := compress_loop_spec enc jpeg_quality
    (min (max max_output_bytes 50000) 10000000) 10
    (initial_target_dims orig_w orig_h max_w max_h).1
    (initial_target_dims orig_w orig_h max_w max_h).2
    (min (max jpeg_quality 30) 95)
  refine ⟨fun r hr => hspec.1 r hr, fun msg hmsg => ?_⟩
  have := hspec.2 msg hmsg
  rw [this]
  exact image_too_large_msg_contains _

/-- C1 amended, witness: an encoder that always produces a gigabyte makes
the call fail with the "Image too large" message; an encoder that always
produces 60 000 bytes succeeds within the clamped budget. -/
theorem prepare_image_data_url_budget_witness :
    (prepare_image_data_url (fun _ _ _ => 1000000000) 100 100 100 100 80 50000 =
      .error (image_too_large_msg 50000) ∧
     str_contains "Image too large".data (image_too_large_msg 50000).data = true) ∧
    (prepare_image_data_url (fun _ _ _ => 60000) 100 100 100 100 80 1000000 =
      .ok (data_url_len 60000, ⟨100, 100, 60000, 80⟩) ∧
     60000 ≤ min (max 1000000 50000) 10000000) :=
  ⟨⟨rfl, (prepare_image_data_url_budget (fun _ _ _ => 1000000000)
      100 100 100 100 80 50000).2 (image_too_large_msg 50000) rfl⟩,
   ⟨rfl, ((prepare_image_data_url_budget (fun _ _ _ => 60000)
      100 100 100 100 80 1000000).1 (data_url_len 60000, ⟨100, 100, 60000, 80⟩) rfl).1⟩⟩

/-! ## Theorems for claim C3 -/

/-- First occurrence: when no cache entry for the hash is younger than the
TTL, `is_duplicate` answers `false` and records the call instant. -/
theorem is_duplicate_fresh (d : MessageDedup) (h now : Nat)
    (hfresh : ∀ p ∈ d.cache, p.1 = h → d.ttl_secs ≤ (now - p.2) / 1000000000) :
    (is_duplicate d now h).1 = false ∧
    (is_duplicate d now h).2.cache =
      (h, now) :: d.cache.filter (fun p => (now - p.2) / 1000000000 < d.ttl_secs) ∧
    (is_duplicate d now h).2.ttl_secs = d.ttl_secs := by
  have hnone : (d.cache.filter
      (fun p => (now - p.2) / 1000000000 < d.ttl_secs)).find?
      (fun p => p.1 == h) = none := by
    rw [List.find?_eq_none]
    intro p hp hbeq
    rw [List.mem_filter] at hp
    have hlt : (now - p.2) / 1000000000 < d.ttl_secs := of_decide_eq_true hp.2
    have hkey : p.1 = h := by simpa using hbeq
    have := hfresh p hp.1 hkey
    omega
  simp [is_duplicate, hnone]

/-- Repeat occurrence: a live cache entry makes `is_duplicate` answer `true`
and survive into the updated cache. -/
theorem is_duplicate_hit (d : MessageDedup) (h t0 now : Nat)
    (hmem : (h, t0) ∈ d.cache)
    (hwin : now - t0 < d.ttl_secs * 1000000000) :
    (is_duplicate d now h).1 = true ∧
    (h, t0) ∈ (is_duplicate d now h).2.cache ∧
    (is_duplicate d now h).2.ttl_secs = d.ttl_secs := by
  have hdiv : (now - t0) / 1000000000 < d.ttl_secs := by
    rw [Nat.div_lt_iff_lt_mul (by omega : 0 < 1000000000)]
    exact hwin
  have hmemf : (h, t0) ∈ d.cache.filter
      (fun p => (now - p.2) / 1000000000 < d.ttl_secs) := by
    rw [List.mem_filter]
    exact ⟨hmem, decide_eq_true hdiv⟩
  cases hfind : (d.cache.filter
      (fun p => (now - p.2) / 1000000000 < d.ttl_secs)).find?
      (fun p => p.1 == h) with
  | none =>
    rw [List.find?_eq_none] at hfind
    exact absurd (by simp : (((h, t0).1 == h) = true)) (hfind (h, t0) hmemf)
  | some p =>
    have hpmem := List.mem_of_find?_eq_some hfind
    rw [List.mem_filter] at hpmem
    have hplt : (now - p.2) / 1000000000 < d.ttl_secs := of_decide_eq_true hpmem.2
    simp only [is_duplicate, hfind, if_pos hplt]
    exact ⟨by simp, by simpa using hmemf, by simp⟩

/-- Every repeat call inside the window is reported as a duplicate. -/
theorem dedup_run_all_true (h t0 : Nat) :
    ∀ (ts : List Nat) (d : MessageDedup), (h, t0) ∈ d.cache →
    (∀ t ∈ ts, t - t0 < d.ttl_secs * 1000000000) →
    dedup_run h d ts = ts.map (fun _ => true) := by
  intro ts
  induction ts with
  | nil => intro d _ _; rfl
  | cons t ts' ih =>
    intro d hmem hwin
    have hstep := is_duplicate_hit d h t0 t hmem (hwin t (List.mem_cons_self t ts'))
    show (is_duplicate d t h).1 :: dedup_run h (is_duplicate d t h).2 ts' = _
    rw [hstep.1, ih (is_duplicate d t h).2 hstep.2.1]
    · rfl
    · intro t' ht'
      rw [hstep.2.2]
      exact hwin t' (List.mem_cons_of_mem t ht')

/-- `send_reply`'s group branch when the bot is not muted just negates
`is_duplicate`. -/
theorem send_reply_group_eq (hash_fn : String → Nat → String → Nat)
    (status : GroupSendStatus) (hst : status ≠ GroupSendStatus.Muted)
    (bot_id : String) (group_id : Nat) (message : String) (d : MessageDedup)
    (now : Nat) :
    send_reply_group hash_fn status bot_id group_id message d now =
      ((!(is_duplicate d now (hash_fn bot_id group_id message)).1),
       (is_duplicate d now (hash_fn bot_id group_id message)).2) := by
  cases status with
  | Muted => exact absurd rfl hst
  | Allowed => rfl
  | Unknown => rfl

/-- Repeat sends inside the window never reach the transport. -/
theorem send_reply_run_all_false (hash_fn : String → Nat → String → Nat)
    (status : GroupSendStatus) (hst : status ≠ GroupSendStatus.Muted)
    (bot_id : String) (group_id : Nat) (message : String) (t0 : Nat) :
    ∀ (ts : List Nat) (d : MessageDedup),
    (hash_fn bot_id group_id message, t0) ∈ d.cache →
    (∀ t ∈ ts, t - t0 < d.ttl_secs * 1000000000) →
    send_reply_run hash_fn status bot_id group_id message d ts =
      ts.map (fun _ => false) := by
  intro ts
  induction ts with
  | nil => intro d _ _; rfl
  | cons t ts' ih =>
    intro d hmem hwin
    have hstep := is_duplicate_hit d (hash_fn bot_id group_id message) t0 t hmem
      (hwin t (List.mem_cons_self t ts'))
    show (send_reply_group hash_fn status bot_id group_id message d t).1 ::
        send_reply_run hash_fn status bot_id group_id message
          (send_reply_group hash_fn status bot_id group_id message d t).2 ts' = _
    rw [send_reply_group_eq hash_fn status hst, hstep.1,
      ih (is_duplicate d t (hash_fn bot_id group_id message)).2 hstep.2.1]
    · rfl
    · intro t' ht'
      rw [hstep.2.2]
      exact hwin t' (List.mem_cons_of_mem t ht')

/-- C3.  If the dedup map holds no entry for the hash recorded less than TTL
seconds before `t0`, the call at `t0` is not reported as duplicate (the
first occurrence is never dropped); every subsequent call with the same hash
strictly less than TTL seconds after `t0` is reported as duplicate; and in
`send_reply`'s group branch (bot not muted) only the first of such a run of
identical `(bot, target, message)` sends reaches the transport. -/
theorem message_dedup_first_wins (hash_fn : String → Nat → String → Nat)
    (status : GroupSendStatus) (bot_id : String) (group_id : Nat)
    (message : String) (d0 : MessageDedup) (t0 : Nat) (ts : List Nat)
    (hst : status ≠ GroupSendStatus.Muted)
    (hfresh : ∀ p ∈ d0.cache, p.1 = hash_fn bot_id group_id message →
      d0.ttl_secs ≤ (t0 - p.2) / 1000000000)
    (hwin : ∀ t ∈ ts, t - t0 < d0.ttl_secs * 1000000000) :
    (is_duplicate d0 t0 (hash_fn bot_id group_id message)).1 = false ∧
    dedup_run (hash_fn bot_id group_id message)
      (is_duplicate d0 t0 (hash_fn bot_id group_id message)).2 ts =
      ts.map (fun _ => true) ∧
    send_reply_run hash_fn status bot_id group_id message d0 (t0 :: ts) =
      true :: ts.map (fun _ => false) := by
  have hstep := is_duplicate_fresh d0 (hash_fn bot_id group_id message) t0 hfresh
  have hmem1 : (hash_fn bot_id group_id message, t0) ∈
      (is_duplicate d0 t0 (hash_fn bot_id group_id message)).2.cache := by
    rw [hstep.2.1]
    exact List.mem_cons_self _ _
  have hwin1 : ∀ t ∈ ts, t - t0 <
      (is_duplicate d0 t0 (hash_fn bot_id group_id message)).2.ttl_secs
        * 1000000000 := by
    intro t ht
    rw [hstep.2.2]
    exact hwin t ht
  refine ⟨hstep.1, dedup_run_all_true _ t0 ts _ hmem1 hwin1, ?_⟩
  show (send_reply_group hash_fn status bot_id group_id message d0 t0).1 ::
      send_reply_run hash_fn status bot_id group_id message
        (send_reply_group hash_fn status bot_id group_id message d0 t0).2 ts = _
  rw [send_reply_group_eq hash_fn status hst, hstep.1,
    send_reply_run_all_false hash_fn status hst bot_id group_id message t0 ts _
      hmem1 hwin1]
  rfl

/-- C3 witness: TTL 5 s, empty cache, first send at t=0 and repeats at 1 s
and 4.9 s; only the first reaches the transport. -/
theorem message_dedup_first_wins_witness :
    ((GroupSendStatus.Allowed ≠ GroupSendStatus.Muted) ∧
     (∀ p ∈ (⟨[], 5⟩ : MessageDedup).cache, p.1 = 42 →
        (5 : Nat) ≤ (0 - p.2) / 1000000000) ∧
     (∀ t ∈ [1000000000, 4900000000], t - 0 < 5 * 1000000000)) ∧
    send_reply_run (fun _ _ _ => 42) GroupSendStatus.Allowed "bot1" 10 "hello"
      ⟨[], 5⟩ (0 :: [1000000000, 4900000000]) = true :: [false, false] :=
  ⟨⟨by decide, (by intro p hp; exact absurd hp (List.not_mem_nil p)), (by decide)⟩,
   (message_dedup_first_wins (fun _ _ _ => 42) GroupSendStatus.Allowed "bot1" 10
      "hello" ⟨[], 5⟩ 0 [1000000000, 4900000000] (by decide)
      (by intro p hp; cases hp) (by decide)).2.2⟩

/-! ## Theorems for claim C10 -/

/-- A digit-free list has an empty leading digit span. -/
theorem digit_span_len_zero (l : List Char)
    (h : ∀ c ∈ l, is_digit c = false) (n : Nat) : digit_span_len l n = 0 := by
  cases l with
  | nil => simp [digit_span_len]
  | cons c rest =>
    have hc := h c (List.mem_cons_self c rest)
    simp [digit_span_len, List.takeWhile_cons, hc]

/-- The scan of `redact_qq_ids` is the identity on digit-free input. -/
theorem redact_qq_go_no_digits (fuel : Nat) :
    ∀ l : List Char, l.length ≤ fuel → (∀ c ∈ l, is_digit c = false) →
    redact_qq_go fuel l = l := by
  induction fuel with
  | zero => intro l _ _; rfl
  | succ f ih =>
    intro l hlen hnd
    cases l with
    | nil => rfl
    | cons c rest =>
      have hrest : ∀ c' ∈ rest, is_digit c' = false := fun c' hc' =>
        hnd c' (List.mem_cons_of_mem c hc')
      have hlen' : rest.length ≤ f := by
        simp only [List.length_cons] at hlen
        omega
      have hds : digit_span_len rest 12 = 0 := digit_span_len_zero rest hrest 12
      by_cases hat : c = '@'
      · simp only [redact_qq_go, if_pos hat, hds]
        rw [if_neg (by omega), ih rest hlen' hrest]
      · by_cases hpar : c = '('
        · simp only [redact_qq_go, if_neg hat, if_pos hpar, hds]
          rw [if_neg (by rintro ⟨⟨h5, _⟩, _⟩; omega), ih rest hlen' hrest]
        · match rest, hrest, hlen' with
          | [], hrest, hlen' =>
            simp only [redact_qq_go, if_neg hat, if_neg hpar]
            rw [ih [] (by omega) (by intro c' hc'; cases hc')]
          | [c1], hrest, hlen' =>
            simp only [redact_qq_go, if_neg hat, if_neg hpar]
            rw [ih [c1] hlen' hrest]
          | [c1, c2], hrest, hlen' =>
            simp only [redact_qq_go, if_neg hat, if_neg hpar]
            rw [ih [c1, c2] hlen' hrest]
          | c1 :: c2 :: c3 :: r3, hrest, hlen' =>
            have hc3 : is_digit c3 = false := hrest c3 (by simp)
            have hqq : ¬(ascii_lower c = 'q' ∧ ascii_lower c1 = 'q' ∧
                ascii_lower c2 = '=' ∧ is_digit c3 = true) := by
              rintro ⟨_, _, _, hdig⟩
              rw [hc3] at hdig
              exact Bool.false_ne_true hdig
            have hhd : head_is_digit r3 = false := by
              cases r3 with
              | nil => rfl
              | cons c4 r4 =>
                exact hrest c4 (by simp)
            have huin : ¬(ascii_lower c = 'u' ∧ ascii_lower c1 = 'i' ∧
                ascii_lower c2 = 'n' ∧ c3 = '=' ∧ head_is_digit r3 = true) := by
              rintro ⟨_, _, _, _, hd⟩
              rw [hhd] at hd
              exact Bool.false_ne_true hd
            simp only [redact_qq_go, if_neg hat, if_neg hpar, if_neg hqq, if_neg huin]
            rw [ih (c1 :: c2 :: c3 :: r3) hlen' hrest]

/-- C10.  For every input string containing no ASCII digit,
`redact_qq_ids` returns the input unchanged. -/
theorem redact_qq_ids_digit_free_id (s : String)
    (h : ∀ c ∈ s.data, is_digit c = false) : redact_qq_ids s = s := by
  obtain ⟨l⟩ := s
  show String.mk (redact_qq_go l.length l) = String.mk l
  rw [redact_qq_go_no_digits l.length l le_rfl h]

/-- C10 witness: a digit-free mixed ASCII/CJK string with `@`, `(`, `qq=`
and `uin=` key shapes is untouched. -/
theorem redact_qq_ids_digit_free_id_witness :
    (∀ c ∈ ("你好 @user (hi) qq=abc uin=x!" : String).data, is_digit c = false) ∧
    redact_qq_ids "你好 @user (hi) qq=abc uin=x!" = "你好 @user (hi) qq=abc uin=x!" :=
  ⟨by decide, redact_qq_ids_digit_free_id "你好 @user (hi) qq=abc uin=x!" (by decide)⟩

/-! ## Theorems for claim C5 -/

/-- A prefix is no longer than the list it starts. -/
theorem starts_with_length (pat l : List Char) (h : starts_with pat l = true) :
    pat.length ≤ l.length := by
  induction pat generalizing l with
  | nil => simp
  | cons p ps ih =>
    cases l with
    | nil => exact absurd h (by simp [starts_with])
    | cons c rest =>
      simp only [starts_with, Bool.and_eq_true] at h
      simp only [List.length_cons]
      exact Nat.succ_le_succ (ih rest h.2)

/-- Every list starts with itself, continuation ignored. -/
theorem starts_with_refl_append (pat l : List Char) :
    starts_with pat (pat ++ l) = true := by
  induction pat with
  | nil => rfl
  | cons p ps ih => simp [starts_with, ih]

/-- The replace scan does not depend on the fuel once the fuel covers the
input length. -/
theorem replace_go_fuel (pat repl : List Char) (hne : pat ≠ []) :
    ∀ (f1 : Nat) (l : List Char) (f2 : Nat), l.length ≤ f1 → l.length ≤ f2 →
    replace_go pat repl f1 l = replace_go pat repl f2 l := by
  intro f1
  induction f1 with
  | zero =>
    intro l f2 h1 _
    have hl : l = [] := List.eq_nil_of_length_eq_zero (Nat.le_zero.mp h1)
    subst hl
    cases f2 <;> rfl
  | succ f ih =>
    intro l f2 h1 h2
    cases l with
    | nil => cases f2 <;> rfl
    | cons c rest =>
      cases f2 with
      | zero => simp at h2
      | succ f2' =>
        by_cases hsw : starts_with pat (c :: rest) = true
        · have hplen : 1 ≤ pat.length := by
            cases pat with
            | nil => exact absurd rfl hne
            | cons _ _ => simp
          have hlen1 : ((c :: rest).drop pat.length).length ≤ f := by
            simp only [List.length_drop, List.length_cons]
            simp only [List.length_cons] at h1
            omega
          have hlen2 : ((c :: rest).drop pat.length).length ≤ f2' := by
            simp only [List.length_drop, List.length_cons]
            simp only [List.length_cons] at h2
            omega
          simp only [replace_go, if_pos hsw]
          rw [ih _ f2' hlen1 hlen2]
        · have hlen1 : rest.length ≤ f := by
            simp only [List.length_cons] at h1; omega
          have hlen2 : rest.length ≤ f2' := by
            simp only [List.length_cons] at h2; omega
          simp only [replace_go, if_neg hsw]
          rw [ih rest f2' hlen1 hlen2]

/-- When the pattern does not occur, the replace scan is the identity. -/
theorem replace_go_no_occurrence (pat repl : List Char) :
    ∀ (fuel : Nat) (l : List Char), str_contains pat l = false →
    replace_go pat repl fuel l = l := by
  intro fuel
  induction fuel with
  | zero => intro l _; rfl
  | succ f ih =>
    intro l hnc
    cases l with
    | nil => rfl
    | cons c rest =>
      have hexp : (starts_with pat (c :: rest) || str_contains pat rest) = false := hnc
      rw [Bool.or_eq_false_iff] at hexp
      have hneg : ¬ starts_with pat (c :: rest) = true := by
        intro hx
        rw [hexp.1] at hx
        exact Bool.false_ne_true hx
      simp only [replace_go, if_neg hneg]
      rw [ih rest hexp.2]

/-- `str::replace` is the identity when the pattern does not occur. -/
theorem rust_replace_no_occurrence (l pat repl : List Char)
    (h : str_contains pat l = false) : rust_replace l pat repl = l := by
  unfold rust_replace
  by_cases hp : pat = []
  · rw [if_pos hp]
  · rw [if_neg hp]
    exact replace_go_no_occurrence pat repl l.length l h

/-- An all-digit pattern cannot match inside a digit-free prefix, so
`str::replace` commutes with prepending such a prefix. -/
theorem rust_replace_nondigit_skip (pat repl a l : List Char)
    (ha : ∀ c ∈ a, is_digit c = false)
    (hpat : ∀ c ∈ pat, is_digit c = true) (hne : pat ≠ []) :
    rust_replace (a ++ l) pat repl = a ++ rust_replace l pat repl := by
  induction a with
  | nil => simp
  | cons c a' ih =>
    have hc : is_digit c = false := ha c (List.mem_cons_self _ _)
    have hsw : starts_with pat (c :: (a' ++ l)) = false := by
      cases pat with
      | nil => exact absurd rfl hne
      | cons p ps =>
        have hp : is_digit p = true := hpat p (List.mem_cons_self _ _)
        have hpc : (p == c) = false := by
          rw [beq_eq_false_iff_ne]
          intro he
          rw [he, hc] at hp
          exact Bool.false_ne_true hp
        simp [starts_with, hpc]
    have ha' : ∀ c' ∈ a', is_digit c' = false := fun c' h' =>
      ha c' (List.mem_cons_of_mem _ h')
    have hstep : rust_replace ((c :: a') ++ l) pat repl =
        c :: rust_replace (a' ++ l) pat repl := by
      have hneg : ¬ starts_with pat (c :: (a' ++ l)) = true := by
        intro hx
        rw [hsw] at hx
        exact Bool.false_ne_true hx
      unfold rust_replace
      rw [if_neg hne, if_neg hne]
      simp only [List.cons_append, List.length_cons]
      simp only [replace_go, if_neg hneg]
    rw [hstep, ih ha']
    rfl

/-- `str::replace` fires on a pattern occurrence at the head. -/
theorem rust_replace_head (pat repl l : List Char) (hne : pat ≠ []) :
    rust_replace (pat ++ l) pat repl = repl ++ rust_replace l pat repl := by
  unfold rust_replace
  rw [if_neg hne, if_neg hne]
  cases pat with
  | nil => exact absurd rfl hne
  | cons p ps =>
    have hsw : starts_with (p :: ps) (p :: (ps ++ l)) = true := by
      have := starts_with_refl_append (p :: ps) l
      simpa using this
    simp only [List.cons_append, List.length_cons, List.length_append]
    simp only [replace_go, if_pos hsw]
    have hdrop : (p :: (ps ++ l)).drop (p :: ps).length = l := by
      simp only [List.length_cons, List.drop_succ_cons]
      exact List.drop_left ps l
    rw [hdrop]
    congr 1
    exact replace_go_fuel (p :: ps) repl hne _ l l.length (by simp) le_rfl

/-- A non-empty all-digit pattern never occurs in a digit-free list. -/
theorem str_contains_false_of_no_digits (pat l : List Char) (hne : pat ≠ [])
    (hpat : ∀ c ∈ pat, is_digit c = true)
    (hl : ∀ c ∈ l, is_digit c = false) : str_contains pat l = false := by
  induction l with
  | nil =>
    cases pat with
    | nil => exact absurd rfl hne
    | cons p ps => rfl
  | cons c rest ih =>
    have hc : is_digit c = false := hl c (List.mem_cons_self _ _)
    have hsw : starts_with pat (c :: rest) = false := by
      cases pat with
      | nil => exact absurd rfl hne
      | cons p ps =>
        have hp : is_digit p = true := hpat p (List.mem_cons_self _ _)
        have hpc : (p == c) = false := by
          rw [beq_eq_false_iff_ne]
          intro he
          rw [he, hc] at hp
          exact Bool.false_ne_true hp
        simp [starts_with, hpc]
    show (starts_with pat (c :: rest) || str_contains pat rest) = false
    rw [hsw, ih (fun c' h' => hl c' (List.mem_cons_of_mem _ h'))]
    rfl

/-- One resolvable token: the opportunistic pass performs exactly the
replacement by the resolved nickname. -/
theorem opportunistic_redact_single (rg : Nat → Nat → Option (List Char))
    (rs : Nat → Option (List Char)) (t out n : List Char) (u : Nat)
    (ht : ¬(t = [] ∨ str_contains t out = false))
    (hparse : parse_positive_u64 t = some u)
    (hrs : rs u = some n) :
    opportunistic_redact rg rs none [t] 0 [] out = rust_replace out t n := by
  simp [opportunistic_redact, List.lookup, hparse, hrs, ht]

/-- Evaluation of the send-path sanitization on the already
pattern-redacted C5 text: only the bare token `123456789` remains, and it
is replaced by the resolved nickname. -/
theorem sanitize_outgoing_text_c5_eval (rg : Nat → Nat → Option (List Char))
    (rs : Nat → Option (List Char)) (n : List Char)
    (hrs : rs 123456789 = some n) :
    sanitize_outgoing_text rg rs none [] "踢出 123456789，@用户 查看 qq=已隐藏".data =
      "踢出 ".data ++ n ++ "，@用户 查看 qq=已隐藏".data := by
  have hprot : protect_cq_segments "踢出 123456789，@用户 查看 qq=已隐藏".data =
      ("踢出 123456789，@用户 查看 qq=已隐藏".data, []) := by decide
  have hext : extract_digit_tokens "踢出 123456789，@用户 查看 qq=已隐藏".data 5 12 =
      ["123456789".data] := by decide
  have hparse : parse_positive_u64 "123456789".data = some 123456789 := by decide
  have hsingle := opportunistic_redact_single rg rs "123456789".data
    "踢出 123456789，@用户 查看 qq=已隐藏".data n 123456789 (by decide) hparse hrs
  have hsplit : "踢出 123456789，@用户 查看 qq=已隐藏".data =
      "踢出 ".data ++ ("123456789".data ++ "，@用户 查看 qq=已隐藏".data) := by decide
  simp only [sanitize_outgoing_text, redact_sensitive_ids_plaintext,
    sensitive_ids_loop, hprot, hext, List.foldl_nil]
  rw [hsingle, hsplit]
  rw [rust_replace_nondigit_skip "123456789".data n "踢出 ".data
    ("123456789".data ++ "，@用户 查看 qq=已隐藏".data) (by decide) (by decide) (by decide)]
  rw [rust_replace_head "123456789".data n "，@用户 查看 qq=已隐藏".data (by decide)]
  rw [rust_replace_no_occurrence "，@用户 查看 qq=已隐藏".data "123456789".data n (by decide)]
  simp [List.append_assoc]

/-- C5 counterexample.  When every name lookup fails (both resolvers answer
`none` — e.g. the OneBot RPCs time out), the bare digit run `123456789` is
left in place: the pattern pass only covers `@…`, `(…)`, `qq=…`, `uin=…`
shapes, and the opportunistic pass replaces a token only "when found".  The
other two ids are still removed. -/
theorem outbound_redaction_c5_counterexample :
    outbound_redaction (fun _ _ => none) (fun _ => none) none []
      "踢出 123456789，@987654 查看 qq=55667788" =
      "踢出 123456789，@用户 查看 qq=已隐藏" ∧
    str_contains "123456789".data
      (outbound_redaction (fun _ _ => none) (fun _ => none) none []
        "踢出 123456789，@987654 查看 qq=55667788").data = true ∧
    str_contains "987654".data
      (outbound_redaction (fun _ _ => none) (fun _ => none) none []
        "踢出 123456789，@987654 查看 qq=55667788").data = false ∧
    str_contains "55667788".data
      (outbound_redaction (fun _ _ => none) (fun _ => none) none []
        "踢出 123456789，@987654 查看 qq=55667788").data = false := by
  refine ⟨?_, ?_, ?_, ?_⟩
  · decide
  · decide
  · decide
  · decide

/-- C5 amended.  Applying the outbound privacy redaction (pattern pass, CQ
protection, sensitive-id substitution with empty event context, and
opportunistic digit-token redaction) to
`"踢出 123456789，@987654 查看 qq=55667788"` yields an output containing none
of the digit substrings `123456789`, `987654`, `55667788`, provided the
lookup of the remaining bare token `123456789` resolves (as the nickname
returned by the OneBot API, which carries no ASCII digits). -/
theorem outbound_redaction_c5 (rg : Nat → Nat → Option (List Char))
    (rs : Nat → Option (List Char)) (n : List Char)
    (hrs : rs 123456789 = some n)
    (hn : ∀ c ∈ n, is_digit c = false) :
    str_contains "123456789".data
      (outbound_redaction rg rs none []
        "踢出 123456789，@987654 查看 qq=55667788").data = false ∧
    str_contains "987654".data
      (outbound_redaction rg rs none []
        "踢出 123456789，@987654 查看 qq=55667788").data = false ∧
    str_contains "55667788".data
      (outbound_redaction rg rs none []
        "踢出 123456789，@987654 查看 qq=55667788").data = false := by
  have hqq : (redact_qq_ids "踢出 123456789，@987654 查看 qq=55667788").data =
      "踢出 123456789，@用户 查看 qq=已隐藏".data := by decide
  have hdata : (outbound_redaction rg rs none []
      "踢出 123456789，@987654 查看 qq=55667788").data =
      "踢出 ".data ++ n ++ "，@用户 查看 qq=已隐藏".data := by
    unfold outbound_redaction
    rw [hqq, sanitize_outgoing_text_c5_eval rg rs n hrs]
  have hnd : ∀ c ∈ "踢出 ".data ++ n ++ "，@用户 查看 qq=已隐藏".data,
      is_digit c = false := by
    intro c hc
    rcases List.mem_append.mp hc with hc1 | hc2
    · rcases List.mem_append.mp hc1 with hc3 | hc4
      · exact (by decide : ∀ c ∈ "踢出 ".data, is_digit c = false) c hc3
      · exact hn c hc4
    · exact (by decide : ∀ c ∈ "，@用户 查看 qq=已隐藏".data, is_digit c = false) c hc2
  rw [hdata]
  exact ⟨str_contains_false_of_no_digits _ _ (by decide) (by decide) hnd,
    str_contains_false_of_no_digits _ _ (by decide) (by decide) hnd,
    str_contains_false_of_no_digits _ _ (by decide) (by decide) hnd⟩

/-- C5 witness: with a resolver answering `张三` for `123456789`, the
redacted output of the C5 input contains none of the three id
substrings. -/
theorem outbound_redaction_c5_witness :
    ((fun u => if u = 123456789 then some "张三".data else none) 123456789 =
        some "张三".data ∧
      (∀ c ∈ "张三".data, is_digit c = false)) ∧
    (str_contains "123456789".data
      (outbound_redaction (fun _ _ => none)
        (fun u => if u = 123456789 then some "张三".data else none) none []
        "踢出 123456789，@987654 查看 qq=55667788").data = false ∧
     str_contains "987654".data
      (outbound_redaction (fun _ _ => none)
        (fun u => if u = 123456789 then some "张三".data else none) none []
        "踢出 123456789，@987654 查看 qq=55667788").data = false ∧
     str_contains "55667788".data
      (outbound_redaction (fun _ _ => none)
        (fun u => if u = 123456789 then some "张三".data else none) none []
        "踢出 123456789，@987654 查看 qq=55667788").data = false) :=
  ⟨⟨by decide, by decide⟩,
    outbound_redaction_c5 (fun _ _ => none)
      (fun u => if u = 123456789 then some "张三".data else none) "张三".data
      (by decide) (by decide)⟩

/-- C4 witness: a disabled-free concrete rejection (global cap reached)
leaves all four observables unchanged. -/
theorem try_begin_llm_task_reject_no_side_effect_witness :
    ((try_begin_llm_task ⟨true, 1, 1, 1, 0⟩ 7 9 1000
        ⟨1, fun _ => 0, fun _ => 0, fun _ => none⟩).1 =
      .error ⟨"当前分析请求过多，请稍后再试"⟩) ∧
    ((try_begin_llm_task ⟨true, 1, 1, 1, 0⟩ 7 9 1000
        ⟨1, fun _ => 0, fun _ => 0, fun _ => none⟩).2.global_inflight = 1 ∧
     (try_begin_llm_task ⟨true, 1, 1, 1, 0⟩ 7 9 1000
        ⟨1, fun _ => 0, fun _ => 0, fun _ => none⟩).2.user_inflight 7 = 0 ∧
     (try_begin_llm_task ⟨true, 1, 1, 1, 0⟩ 7 9 1000
        ⟨1, fun _ => 0, fun _ => 0, fun _ => none⟩).2.group_inflight 9 = 0 ∧
     (try_begin_llm_task ⟨true, 1, 1, 1, 0⟩ 7 9 1000
        ⟨1, fun _ => 0, fun _ => 0, fun _ => none⟩).2.user_last_start 7 = none) :=
  ⟨rfl, try_begin_llm_task_reject_no_side_effect ⟨true, 1, 1, 1, 0⟩ 7 9 1000
      ⟨1, fun _ => 0, fun _ => 0, fun _ => none⟩ ⟨"当前分析请求过多，请稍后再试"⟩ rfl⟩

end NBot
